import Mathlib

/-!
Verification development for the Yggdrasil music-catalog program
(`Frank_Draft5.py`).  The program keeps a four-level nested dictionary
Genre → Artist → Album → Song → attribute mapping, mutated by `add_song`,
sampled by `random_genre` / `random_artist` / `random_album` / `random_song`
(each a `random.choice` over the key list), read by direct subscripting
(`Yggdrasil[genre][artist][album][song]`, raising `KeyError` on a missing
key), and persisted with `json.dump` / `json.load` in `save_yggdrasil` /
`load_yggdrasil`.

Python dictionaries are modelled as ordered association lists with the
CPython semantics: assignment to a present key replaces the value in place
(keeping its position), assignment to a fresh key appends it; iteration and
`.keys()` follow insertion order.  JSON values are an inductive type; the
persisted file is either a valid JSON document or malformed text.  Python
exceptions relevant to the program, and the typed error classes named by the
specification (which the program itself never defines or raises), are the
constructors of `Exc`.
-/

namespace Yggdrasil

/-- JSON values, as produced by Python's `json` module (numbers restricted to
integers, which covers every attribute the program stores: durations, track
numbers, identifiers and strings). -/
inductive Json where
  | null : Json
  | bool (b : Bool) : Json
  | num (n : Int) : Json
  | str (s : String) : Json
  | arr (elems : List Json) : Json
  | obj (fields : List (String × Json)) : Json

/-- Exceptions: the built-in Python exceptions the program can actually raise
(`KeyError` from dict subscripting, `IndexError` from `random.choice` on an
empty sequence, `json.JSONDecodeError` from `json.load`), together with the
typed error classes that the documentation names but the program never
defines (`EmptyCollectionError`, `PathNotFoundError`,
`PersistenceFormatError`).  Keeping the latter as constructors lets claims
about them be stated and compared against what the code really raises. -/
inductive Exc where
  | keyError (key : String) : Exc
  | indexError : Exc
  | jsonDecodeError : Exc
  | emptyCollectionError : Exc
  | pathNotFoundError (segment : String) : Exc
  | persistenceFormatError : Exc
deriving DecidableEq, Repr

/-- `d[k]` read on a Python dict modelled as an ordered association list:
the value at the first (and, for dicts, only) occurrence of `k`. -/
def dictGet {α : Type} : List (String × α) → String → Option α
  | [], _ => none
  | (k, v) :: rest, key => if k = key then some v else dictGet rest key

/-- `d[k] = v` on a Python dict: replace the value at `k` in place if `k` is
present (CPython keeps the key's insertion position), otherwise append the
new binding at the end. -/
def dictSet {α : Type} : List (String × α) → String → α → List (String × α)
  | [], key, val => [(key, val)]
  | (k, v) :: rest, key, val =>
      if k = key then (key, val) :: rest else (k, v) :: dictSet rest key val

/-- `list(d.keys())`: the keys of the dict in insertion order. -/
def dictKeys {α : Type} (d : List (String × α)) : List String :=
  d.map Prod.fst

/-- `k in d`: Python's membership test on a dict. -/
def containsKey {α : Type} (d : List (String × α)) (key : String) : Bool :=
  (dictGet d key).isSome

/-- SongRecord (spec §3): the flat attribute mapping at a Song leaf.  In the
program it is whatever dict `add_song` receives as `metadata`. -/
abbrev SongRecord := List (String × Json)

/-- AlbumNode: Song title ↦ SongRecord. -/
abbrev AlbumNode := List (String × SongRecord)

/-- ArtistNode: Album ↦ AlbumNode. -/
abbrev ArtistNode := List (String × AlbumNode)

/-- GenreNode: Artist ↦ ArtistNode. -/
abbrev GenreNode := List (String × ArtistNode)

/-- CatalogTree: Genre ↦ GenreNode; the shape of the global `Yggdrasil`
dict. -/
abbrev CatalogTree := List (String × GenreNode)

/-- `metadata or {}` (line 42): Python's `or` yields `{}` when `metadata` is
`None` or an empty (falsy) dict; an empty dict is already `[]` here, so this
is exactly `Option.getD` with default `[]`. -/
def metaOr (metadata : Option SongRecord) : SongRecord :=
  metadata.getD []

/-- `add_song` (lines 34–42): ensure each missing level exists as an empty
dict, then assign the leaf.  The in-place mutations of the nested dicts are
rendered as reads after each ensure step followed by write-backs at the keys
(each write-back hits a present key, so positions are preserved exactly as
in CPython). -/
def add_song (t : CatalogTree) (genre artist album song_name : String)
    (metadata : Option SongRecord) : CatalogTree :=
  let t1 := if containsKey t genre then t else dictSet t genre []
  let gn := (dictGet t1 genre).getD []
  let gn1 := if containsKey gn artist then gn else dictSet gn artist []
  let an := (dictGet gn1 artist).getD []
  let an1 := if containsKey an album then an else dictSet an album []
  let aln := (dictGet an1 album).getD []
  let aln1 := dictSet aln song_name (metaOr metadata)
  dictSet t1 genre (dictSet gn1 artist (dictSet an1 album aln1))

/-- `Yggdrasil[genre][artist][album][song]` (lines 166 and 176): exact-path
lookup by chained subscripting; a missing key at any level raises
`KeyError(key)` naming that key. -/
def lookup (t : CatalogTree) (genre artist album song : String) :
    Except Exc SongRecord :=
  match dictGet t genre with
  | none => .error (.keyError genre)
  | some gn =>
    match dictGet gn artist with
    | none => .error (.keyError artist)
    | some an =>
      match dictGet an album with
      | none => .error (.keyError album)
      | some aln =>
        match dictGet aln song with
        | none => .error (.keyError song)
        | some r => .ok r

/-- `Yggdrasil.keys()` (line 162): the key view at the root. -/
def enumerate_keys0 (t : CatalogTree) : List String :=
  dictKeys t

/-- `Yggdrasil[genre].keys()` (line 163). -/
def enumerate_keys1 (t : CatalogTree) (genre : String) :
    Except Exc (List String) :=
  match dictGet t genre with
  | none => .error (.keyError genre)
  | some gn => .ok (dictKeys gn)

/-- `Yggdrasil[genre][artist].keys()` (line 164). -/
def enumerate_keys2 (t : CatalogTree) (genre artist : String) :
    Except Exc (List String) :=
  match dictGet t genre with
  | none => .error (.keyError genre)
  | some gn =>
    match dictGet gn artist with
    | none => .error (.keyError artist)
    | some an => .ok (dictKeys an)

/-- `Yggdrasil[genre][artist][album].keys()` (line 165). -/
def enumerate_keys3 (t : CatalogTree) (genre artist album : String) :
    Except Exc (List String) :=
  match dictGet t genre with
  | none => .error (.keyError genre)
  | some gn =>
    match dictGet gn artist with
    | none => .error (.keyError artist)
    | some an =>
      match dictGet an album with
      | none => .error (.keyError album)
      | some aln => .ok (dictKeys aln)

/-- `random.choice(xs)` with the chosen position made explicit: CPython's
`random.choice` evaluates `seq[self._randbelow(len(seq))]`; on an empty
sequence `_randbelow(0)` returns `0` and the subscript raises `IndexError`.
The draw `i` is an arbitrary natural, reduced modulo the length, so every
position is reachable; no emptiness check happens before the subscript. -/
def random_choice {α : Type} (xs : List α) (i : Nat) : Except Exc α :=
  if h : xs.length = 0 then .error .indexError
  else .ok (xs.get ⟨i % xs.length, Nat.mod_lt i (Nat.pos_of_ne_zero h)⟩)

/-- `random_genre` (lines 112–113): `random.choice(list(Yggdrasil.keys()))`. -/
def random_genre (t : CatalogTree) (i : Nat) : Except Exc String :=
  random_choice (dictKeys t) i

/-- `random_artist` (lines 115–116):
`random.choice(list(Yggdrasil[genre].keys()))`; a missing genre raises
`KeyError` from the subscript. -/
def random_artist (t : CatalogTree) (genre : String) (i : Nat) :
    Except Exc String :=
  match dictGet t genre with
  | none => .error (.keyError genre)
  | some gn => random_choice (dictKeys gn) i

/-- `random_album` (lines 118–119). -/
def random_album (t : CatalogTree) (genre artist : String) (i : Nat) :
    Except Exc String :=
  match dictGet t genre with
  | none => .error (.keyError genre)
  | some gn =>
    match dictGet gn artist with
    | none => .error (.keyError artist)
    | some an => random_choice (dictKeys an) i

/-- `random_song` (lines 121–122). -/
def random_song (t : CatalogTree) (genre artist album : String) (i : Nat) :
    Except Exc String :=
  match dictGet t genre with
  | none => .error (.keyError genre)
  | some gn =>
    match dictGet gn artist with
    | none => .error (.keyError artist)
    | some an =>
      match dictGet an album with
      | none => .error (.keyError album)
      | some aln => random_choice (dictKeys aln) i

/-- The serialization `json.dump` produces for a SongRecord: a flat JSON
object of its attributes. -/
def encodeRecord (r : SongRecord) : Json :=
  .obj r

/-- Serialization of an AlbumNode: a JSON object whose fields are the songs. -/
def encodeAlbumNode (aln : AlbumNode) : Json :=
  .obj (aln.map fun p => (p.1, encodeRecord p.2))

/-- Serialization of an ArtistNode: a JSON object whose fields are the
albums. -/
def encodeArtistNode (an : ArtistNode) : Json :=
  .obj (an.map fun p => (p.1, encodeAlbumNode p.2))

/-- Serialization of a GenreNode: a JSON object whose fields are the
artists. -/
def encodeGenreNode (gn : GenreNode) : Json :=
  .obj (gn.map fun p => (p.1, encodeArtistNode p.2))

/-- Serialization of the whole tree, as `json.dump(Yggdrasil, f)` writes it:
four nested JSON objects then the flat attribute object, in dict insertion
order. -/
def encodeTree (t : CatalogTree) : Json :=
  .obj (t.map fun p => (p.1, encodeGenreNode p.2))

/-- Reading a JSON value back as a SongRecord: any JSON object qualifies
(the attributes are untyped in the program). -/
def decodeRecord : Json → Option SongRecord
  | .obj fields => some fields
  | _ => none

/-- Reading the fields of a JSON object back as an AlbumNode, field by
field. -/
def decodeAlbumEntries : List (String × Json) → Option AlbumNode
  | [] => some []
  | (k, j) :: rest =>
      match decodeRecord j, decodeAlbumEntries rest with
      | some r, some rs => some ((k, r) :: rs)
      | _, _ => none

/-- Reading a JSON value back as an AlbumNode. -/
def decodeAlbumNode : Json → Option AlbumNode
  | .obj fields => decodeAlbumEntries fields
  | _ => none

/-- Reading the fields of a JSON object back as an ArtistNode. -/
def decodeArtistEntries : List (String × Json) → Option ArtistNode
  | [] => some []
  | (k, j) :: rest =>
      match decodeAlbumNode j, decodeArtistEntries rest with
      | some a, some as_ => some ((k, a) :: as_)
      | _, _ => none

/-- Reading a JSON value back as an ArtistNode. -/
def decodeArtistNode : Json → Option ArtistNode
  | .obj fields => decodeArtistEntries fields
  | _ => none

/-- Reading the fields of a JSON object back as a GenreNode. -/
def decodeGenreEntries : List (String × Json) → Option GenreNode
  | [] => some []
  | (k, j) :: rest =>
      match decodeArtistNode j, decodeGenreEntries rest with
      | some g, some gs => some ((k, g) :: gs)
      | _, _ => none

/-- Reading a JSON value back as a GenreNode. -/
def decodeGenreNode : Json → Option GenreNode
  | .obj fields => decodeGenreEntries fields
  | _ => none

/-- Reading the entries of a top-level JSON object back as a CatalogTree. -/
def decodeTreeEntries : List (String × Json) → Option CatalogTree
  | [] => some []
  | (k, j) :: rest =>
      match decodeGenreNode j, decodeTreeEntries rest with
      | some g, some gs => some ((k, g) :: gs)
      | _, _ => none

/-- Reading a loaded JSON value as the four-level CatalogTree shape;
`none` when the value does not conform to the nested-mapping shape of the
data model.  The program itself performs no such validation — `json.load`'s
result is assigned to the global unchecked — so this is the judge of
"decodable as the expected nested-mapping shape", not a program step. -/
def decodeTree : Json → Option CatalogTree
  | .obj fields => decodeTreeEntries fields
  | _ => none

/-- Content of the destination file: either a well-formed JSON document
(carrying the value it encodes) or text that is not valid JSON.  An empty
or half-written file is not valid JSON, hence `badDoc`. -/
inductive FileContent where
  | jsonDoc (j : Json) : FileContent
  | badDoc : FileContent

/-- A destination path: `none` when no file exists there. -/
abbrev FileState := Option FileContent

/-- `save_yggdrasil` (lines 129–133): `json.dump(Yggdrasil, f)` into a file
opened with mode `"w"`; the resulting file holds the JSON document encoding
the tree. -/
def save_yggdrasil (t : CatalogTree) : FileState :=
  some (.jsonDoc (encodeTree t))

/-- The successive states of the destination during `save_yggdrasil`:
`open(filename, "w")` truncates the destination to the empty string (not
valid JSON) the moment it succeeds, and only then does `json.dump` write the
document.  There is no temporary file and no rename. -/
def save_yggdrasil_trace (t : CatalogTree) (pre : FileState) :
    List FileState :=
  [pre, some .badDoc, save_yggdrasil t]

/-- `load_yggdrasil` (lines 136–145): if the file exists, `json.load` parses
it — returning whatever JSON value it holds, with no shape validation — and
the result becomes the new tree; invalid JSON raises `json.JSONDecodeError`;
a missing file yields the fresh empty dict. -/
def load_yggdrasil (src : FileState) : Except Exc Json :=
  match src with
  | none => .ok (.obj [])
  | some .badDoc => .error .jsonDecodeError
  | some (.jsonDoc j) => .ok j

/-- The global `Yggdrasil` across a `load_yggdrasil` call: on success the
parsed document replaces the current value wholesale (`Yggdrasil =
json.load(f)`, line 141); when `json.load` raises, the assignment never
runs and the current value stays. -/
def load_yggdrasil_state (src : FileState) (cur : Json) :
    Json × Option Exc :=
  match load_yggdrasil src with
  | .ok j => (j, none)
  | .error e => (cur, some e)

/-- One `add_song` call's arguments. -/
structure AddOp where
  genre : String
  artist : String
  album : String
  song_name : String
  metadata : Option SongRecord

/-- A tree built from the empty global by a finite sequence of `add_song`
calls. -/
def buildTree (ops : List AddOp) : CatalogTree :=
  ops.foldl
    (fun t o => add_song t o.genre o.artist o.album o.song_name o.metadata) []

/-- The AlbumNode value `add_song` leaves at the album key: the old node
with the song leaf assigned.  A derived view of `add_song` used to state
lemmas level by level; `add_song_eq_upd` below proves it definitionally
equal to the monolithic translation. -/
def updAlbumNode (aln : AlbumNode) (song_name : String)
    (metadata : Option SongRecord) : AlbumNode :=
  dictSet aln song_name (metaOr metadata)

/-- The ArtistNode value `add_song` leaves at the artist key. -/
def updArtistNode (an : ArtistNode) (album song_name : String)
    (metadata : Option SongRecord) : ArtistNode :=
  let an1 := if containsKey an album then an else dictSet an album []
  dictSet an1 album (updAlbumNode ((dictGet an1 album).getD []) song_name metadata)

/-- The GenreNode value `add_song` leaves at the genre key. -/
def updGenreNode (gn : GenreNode) (artist album song_name : String)
    (metadata : Option SongRecord) : GenreNode :=
  let gn1 := if containsKey gn artist then gn else dictSet gn artist []
  dictSet gn1 artist
    (updArtistNode ((dictGet gn1 artist).getD []) album song_name metadata)

/-- Key uniqueness of one dict level (spec §3: "At every level, keys are
unique"). -/
def nodupKeys {α : Type} (d : List (String × α)) : Prop :=
  (dictKeys d).Nodup

/-- Uniqueness of song keys within an AlbumNode. -/
def albumNodeWF (aln : AlbumNode) : Prop :=
  nodupKeys aln

/-- Uniqueness of album keys and of the keys of every album below. -/
def artistNodeWF (an : ArtistNode) : Prop :=
  nodupKeys an ∧ ∀ p ∈ an, albumNodeWF p.2

/-- Uniqueness of artist keys and of the keys of every node below. -/
def genreNodeWF (gn : GenreNode) : Prop :=
  nodupKeys gn ∧ ∀ p ∈ gn, artistNodeWF p.2

/-- The spec's per-level key-uniqueness invariant over the whole tree. -/
def treeWF (t : CatalogTree) : Prop :=
  nodupKeys t ∧ ∀ p ∈ t, genreNodeWF p.2

theorem dictGet_dictSet_self {α : Type} (d : List (String × α)) (key : String)
    (v : α) : dictGet (dictSet d key v) key = some v := by
  induction d with
  | nil => simp [dictSet, dictGet]
  | cons hd rest ih =>
      obtain ⟨k, w⟩ := hd
      by_cases h : k = key
      · subst h
        simp [dictSet, dictGet]
      · simp [dictSet, dictGet, h, ih]

theorem dictGet_dictSet_ne {α : Type} (d : List (String × α)) (v : α)
    {key key' : String} (h : key' ≠ key) :
    dictGet (dictSet d key v) key' = dictGet d key' := by
  induction d with
  | nil => simp [dictSet, dictGet, Ne.symm h]
  | cons hd rest ih =>
      obtain ⟨k, w⟩ := hd
      by_cases hk : k = key
      · subst hk
        simp [dictSet, dictGet, Ne.symm h]
      · by_cases hk' : k = key'
        · subst hk'
          simp [dictSet, dictGet, hk]
        · simp [dictSet, dictGet, hk, hk', ih]

theorem mem_dictKeys_of_dictGet {α : Type} (d : List (String × α))
    (key : String) (v : α) (h : dictGet d key = some v) : key ∈ dictKeys d := by
  induction d with
  | nil => simp [dictGet] at h
  | cons hd rest ih =>
      obtain ⟨k, w⟩ := hd
      by_cases hk : k = key
      · subst hk
        simp [dictKeys]
      · rw [dictGet, if_neg hk] at h
        simp [dictKeys]
        right
        simpa [dictKeys] using ih h

theorem dictGet_eq_none_of_not_contains {α : Type} (d : List (String × α))
    (key : String) (h : containsKey d key = false) : dictGet d key = none := by
  cases hd : dictGet d key with
  | none => rfl
  | some v => rw [containsKey, hd] at h; cases h

theorem dictGet_mem {α : Type} (d : List (String × α)) (key : String) (v : α)
    (h : dictGet d key = some v) : (key, v) ∈ d := by
  induction d with
  | nil => simp [dictGet] at h
  | cons hd rest ih =>
      obtain ⟨k, w⟩ := hd
      by_cases hk : k = key
      · subst hk
        rw [dictGet, if_pos rfl] at h
        cases h
        simp
      · rw [dictGet, if_neg hk] at h
        exact List.mem_cons_of_mem _ (ih h)

theorem mem_dictSet {α : Type} (d : List (String × α)) (key : String) (v : α)
    (p : String × α) (h : p ∈ dictSet d key v) : p ∈ d ∨ p = (key, v) := by
  induction d with
  | nil => simpa [dictSet] using h
  | cons hd rest ih =>
      obtain ⟨k, w⟩ := hd
      by_cases hk : k = key
      · subst hk
        rw [dictSet, if_pos rfl] at h
        rcases List.mem_cons.mp h with h1 | h1
        · exact Or.inr h1
        · exact Or.inl (List.mem_cons_of_mem _ h1)
      · rw [dictSet, if_neg hk] at h
        rcases List.mem_cons.mp h with h1 | h1
        · exact Or.inl (h1 ▸ List.mem_cons_self _ _)
        · rcases ih h1 with h2 | h2
          · exact Or.inl (List.mem_cons_of_mem _ h2)
          · exact Or.inr h2

theorem dictKeys_dictSet_of_contains {α : Type} (d : List (String × α))
    (key : String) (v : α) (h : containsKey d key = true) :
    dictKeys (dictSet d key v) = dictKeys d := by
  induction d with
  | nil => rw [containsKey, dictGet] at h; cases h
  | cons hd rest ih =>
      obtain ⟨k, w⟩ := hd
      by_cases hk : k = key
      · subst hk
        rw [dictSet, if_pos rfl]
        simp [dictKeys]
      · rw [dictSet, if_neg hk]
        rw [containsKey, dictGet, if_neg hk] at h
        simp only [dictKeys, List.map_cons]
        rw [show (dictSet rest key v).map Prod.fst = dictKeys (dictSet rest key v) from rfl,
          ih h]
        rfl

theorem dictKeys_dictSet_of_not_contains {α : Type} (d : List (String × α))
    (key : String) (v : α) (h : containsKey d key = false) :
    dictKeys (dictSet d key v) = dictKeys d ++ [key] := by
  induction d with
  | nil => simp [dictSet, dictKeys]
  | cons hd rest ih =>
      obtain ⟨k, w⟩ := hd
      by_cases hk : k = key
      · subst hk
        rw [containsKey, dictGet, if_pos rfl] at h
        cases h
      · rw [dictSet, if_neg hk]
        rw [containsKey, dictGet, if_neg hk] at h
        simp only [dictKeys, List.map_cons, List.cons_append, List.cons.injEq, true_and]
        exact ih h

theorem not_mem_dictKeys_of_not_contains {α : Type} (d : List (String × α))
    (key : String) (h : containsKey d key = false) : key ∉ dictKeys d := by
  induction d with
  | nil => simp [dictKeys]
  | cons hd rest ih =>
      obtain ⟨k, w⟩ := hd
      by_cases hk : k = key
      · subst hk
        rw [containsKey, dictGet, if_pos rfl] at h
        cases h
      · rw [containsKey, dictGet, if_neg hk] at h
        simp only [dictKeys, List.map_cons, List.mem_cons]
        rintro (h1 | h1)
        · exact hk h1.symm
        · exact ih h h1

theorem nodupKeys_dictSet {α : Type} (d : List (String × α)) (key : String)
    (v : α) (h : nodupKeys d) : nodupKeys (dictSet d key v) := by
  unfold nodupKeys at h ⊢
  cases hc : containsKey d key
  · rw [dictKeys_dictSet_of_not_contains d key v hc]
    rw [List.nodup_append]
    exact ⟨h, List.nodup_singleton key,
      fun a ha hb => by
        simp only [List.mem_singleton] at hb
        exact not_mem_dictKeys_of_not_contains d key hc (hb ▸ ha)⟩
  · rw [dictKeys_dictSet_of_contains d key v hc]
    exact h

theorem add_song_eq_upd (t : CatalogTree) (g a al s : String)
    (m : Option SongRecord) :
    add_song t g a al s m =
      dictSet (if containsKey t g then t else dictSet t g []) g
        (updGenreNode
          ((dictGet (if containsKey t g then t else dictSet t g []) g).getD [])
          a al s m) := rfl

theorem dictGet_add_song_self (t : CatalogTree) (g a al s : String)
    (m : Option SongRecord) :
    dictGet (add_song t g a al s m) g =
      some (updGenreNode ((dictGet t g).getD []) a al s m) := by
  rw [add_song_eq_upd]
  cases hc : containsKey t g
  · rw [if_neg (by simp [hc]), dictGet_dictSet_self, dictGet_dictSet_self,
      dictGet_eq_none_of_not_contains t g hc]
    simp
  · rw [if_pos (by simp [hc]), dictGet_dictSet_self]

theorem dictGet_add_song_ne (t : CatalogTree) (g a al s : String)
    (m : Option SongRecord) {g' : String} (h : g' ≠ g) :
    dictGet (add_song t g a al s m) g' = dictGet t g' := by
  rw [add_song_eq_upd, dictGet_dictSet_ne _ _ h]
  cases hc : containsKey t g
  · rw [if_neg (by simp [hc]), dictGet_dictSet_ne _ _ h]
  · rw [if_pos (by simp [hc])]

theorem updGenreNode_eq (gn : GenreNode) (a al s : String)
    (m : Option SongRecord) :
    updGenreNode gn a al s m =
      dictSet (if containsKey gn a then gn else dictSet gn a []) a
        (updArtistNode
          ((dictGet (if containsKey gn a then gn else dictSet gn a []) a).getD [])
          al s m) := rfl

theorem dictGet_updGenreNode_self (gn : GenreNode) (a al s : String)
    (m : Option SongRecord) :
    dictGet (updGenreNode gn a al s m) a =
      some (updArtistNode ((dictGet gn a).getD []) al s m) := by
  rw [updGenreNode_eq]
  cases hc : containsKey gn a
  · rw [if_neg (by simp [hc]), dictGet_dictSet_self, dictGet_dictSet_self,
      dictGet_eq_none_of_not_contains gn a hc]
    simp
  · rw [if_pos (by simp [hc]), dictGet_dictSet_self]

theorem dictGet_updGenreNode_ne (gn : GenreNode) (a al s : String)
    (m : Option SongRecord) {a' : String} (h : a' ≠ a) :
    dictGet (updGenreNode gn a al s m) a' = dictGet gn a' := by
  rw [updGenreNode_eq, dictGet_dictSet_ne _ _ h]
  cases hc : containsKey gn a
  · rw [if_neg (by simp [hc]), dictGet_dictSet_ne _ _ h]
  · rw [if_pos (by simp [hc])]

theorem updArtistNode_eq (an : ArtistNode) (al s : String)
    (m : Option SongRecord) :
    updArtistNode an al s m =
      dictSet (if containsKey an al then an else dictSet an al []) al
        (updAlbumNode
          ((dictGet (if containsKey an al then an else dictSet an al []) al).getD [])
          s m) := rfl

theorem dictGet_updArtistNode_self (an : ArtistNode) (al s : String)
    (m : Option SongRecord) :
    dictGet (updArtistNode an al s m) al =
      some (updAlbumNode ((dictGet an al).getD []) s m) := by
  rw [updArtistNode_eq]
  cases hc : containsKey an al
  · rw [if_neg (by simp [hc]), dictGet_dictSet_self, dictGet_dictSet_self,
      dictGet_eq_none_of_not_contains an al hc]
    simp
  · rw [if_pos (by simp [hc]), dictGet_dictSet_self]

theorem dictGet_updArtistNode_ne (an : ArtistNode) (al s : String)
    (m : Option SongRecord) {al' : String} (h : al' ≠ al) :
    dictGet (updArtistNode an al s m) al' = dictGet an al' := by
  rw [updArtistNode_eq, dictGet_dictSet_ne _ _ h]
  cases hc : containsKey an al
  · rw [if_neg (by simp [hc]), dictGet_dictSet_ne _ _ h]
  · rw [if_pos (by simp [hc])]

theorem dictGet_updAlbumNode_self (aln : AlbumNode) (s : String)
    (m : Option SongRecord) :
    dictGet (updAlbumNode aln s m) s = some (metaOr m) :=
  dictGet_dictSet_self aln s (metaOr m)

theorem dictGet_updAlbumNode_ne (aln : AlbumNode) (s : String)
    (m : Option SongRecord) {s' : String} (h : s' ≠ s) :
    dictGet (updAlbumNode aln s m) s' = dictGet aln s' :=
  dictGet_dictSet_ne aln (metaOr m) h

theorem add_song_path_get (t : CatalogTree) (g a al s : String)
    (m : Option SongRecord) :
    ∃ gn an aln, dictGet (add_song t g a al s m) g = some gn ∧
      dictGet gn a = some an ∧ dictGet an al = some aln ∧
      dictGet aln s = some (metaOr m) :=
  ⟨_, _, _, dictGet_add_song_self t g a al s m,
    dictGet_updGenreNode_self _ a al s m,
    dictGet_updArtistNode_self _ al s m,
    dictGet_updAlbumNode_self _ s m⟩

theorem lookup_ok_iff (t : CatalogTree) (g a al s : String) (r : SongRecord) :
    lookup t g a al s = Except.ok r ↔
      ∃ gn an aln, dictGet t g = some gn ∧ dictGet gn a = some an ∧
        dictGet an al = some aln ∧ dictGet aln s = some r := by
  unfold lookup
  cases hg : dictGet t g with
  | none => simp [hg]
  | some gn =>
    cases ha : dictGet gn a with
    | none => simp [hg, ha]
    | some an =>
      cases hal : dictGet an al with
      | none => simp [hg, ha, hal]
      | some aln =>
        cases hs : dictGet aln s with
        | none => simp [hg, ha, hal, hs]
        | some r2 => simp [hg, ha, hal, hs]

theorem decodeAlbumEntries_encode (aln : AlbumNode) :
    decodeAlbumEntries (aln.map fun p => (p.1, encodeRecord p.2)) = some aln := by
  induction aln with
  | nil => rfl
  | cons hd rest ih =>
      obtain ⟨k, r⟩ := hd
      have hr : decodeRecord (encodeRecord r) = some r := rfl
      simp only [List.map_cons, decodeAlbumEntries, hr, ih]

theorem decodeAlbumNode_encode (aln : AlbumNode) :
    decodeAlbumNode (encodeAlbumNode aln) = some aln := by
  simp [decodeAlbumNode, encodeAlbumNode, decodeAlbumEntries_encode]

theorem decodeArtistEntries_encode (an : ArtistNode) :
    decodeArtistEntries (an.map fun p => (p.1, encodeAlbumNode p.2)) = some an := by
  induction an with
  | nil => rfl
  | cons hd rest ih =>
      obtain ⟨k, aln⟩ := hd
      simp only [List.map_cons, decodeArtistEntries, decodeAlbumNode_encode, ih]

theorem decodeArtistNode_encode (an : ArtistNode) :
    decodeArtistNode (encodeArtistNode an) = some an := by
  simp [decodeArtistNode, encodeArtistNode, decodeArtistEntries_encode]

theorem decodeGenreEntries_encode (gn : GenreNode) :
    decodeGenreEntries (gn.map fun p => (p.1, encodeArtistNode p.2)) = some gn := by
  induction gn with
  | nil => rfl
  | cons hd rest ih =>
      obtain ⟨k, an⟩ := hd
      simp only [List.map_cons, decodeGenreEntries, decodeArtistNode_encode, ih]

theorem decodeGenreNode_encode (gn : GenreNode) :
    decodeGenreNode (encodeGenreNode gn) = some gn := by
  simp [decodeGenreNode, encodeGenreNode, decodeGenreEntries_encode]

theorem decodeTreeEntries_encode (t : CatalogTree) :
    decodeTreeEntries (t.map fun p => (p.1, encodeGenreNode p.2)) = some t := by
  induction t with
  | nil => rfl
  | cons hd rest ih =>
      obtain ⟨k, gn⟩ := hd
      simp only [List.map_cons, decodeTreeEntries, decodeGenreNode_encode, ih]

theorem decodeTree_encodeTree (t : CatalogTree) :
    decodeTree (encodeTree t) = some t := by
  simp [decodeTree, encodeTree, decodeTreeEntries_encode]

theorem albumNodeWF_upd (aln : AlbumNode) (s : String) (m : Option SongRecord)
    (h : albumNodeWF aln) : albumNodeWF (updAlbumNode aln s m) :=
  nodupKeys_dictSet aln s (metaOr m) h

theorem artistNodeWF_ensure (an : ArtistNode) (al : String)
    (h : artistNodeWF an) :
    artistNodeWF (if containsKey an al then an else dictSet an al []) := by
  cases hc : containsKey an al
  · rw [if_neg (by simp [hc])]
    refine ⟨nodupKeys_dictSet an al [] h.1, fun p hp => ?_⟩
    rcases mem_dictSet an al [] p hp with h1 | h1
    · exact h.2 p h1
    · rw [h1]
      exact List.nodup_nil
  · rw [if_pos (by simp [hc])]
    exact h

theorem artistNodeWF_upd (an : ArtistNode) (al s : String)
    (m : Option SongRecord) (h : artistNodeWF an) :
    artistNodeWF (updArtistNode an al s m) := by
  rw [updArtistNode_eq]
  have h1 := artistNodeWF_ensure an al h
  set an1 := if containsKey an al then an else dictSet an al [] with han1
  refine ⟨nodupKeys_dictSet an1 al _ h1.1, fun p hp => ?_⟩
  rcases mem_dictSet an1 al _ p hp with h2 | h2
  · exact h1.2 p h2
  · rw [h2]
    refine albumNodeWF_upd _ s m ?_
    cases hal : dictGet an1 al with
    | none => exact List.nodup_nil
    | some aln => exact h1.2 (al, aln) (dictGet_mem an1 al aln hal)

theorem genreNodeWF_ensure (gn : GenreNode) (a : String)
    (h : genreNodeWF gn) :
    genreNodeWF (if containsKey gn a then gn else dictSet gn a []) := by
  cases hc : containsKey gn a
  · rw [if_neg (by simp [hc])]
    refine ⟨nodupKeys_dictSet gn a [] h.1, fun p hp => ?_⟩
    rcases mem_dictSet gn a [] p hp with h1 | h1
    · exact h.2 p h1
    · rw [h1]
      exact ⟨List.nodup_nil, fun q hq => absurd hq (List.not_mem_nil q)⟩
  · rw [if_pos (by simp [hc])]
    exact h

theorem genreNodeWF_upd (gn : GenreNode) (a al s : String)
    (m : Option SongRecord) (h : genreNodeWF gn) :
    genreNodeWF (updGenreNode gn a al s m) := by
  rw [updGenreNode_eq]
  have h1 := genreNodeWF_ensure gn a h
  set gn1 := if containsKey gn a then gn else dictSet gn a [] with hgn1
  refine ⟨nodupKeys_dictSet gn1 a _ h1.1, fun p hp => ?_⟩
  rcases mem_dictSet gn1 a _ p hp with h2 | h2
  · exact h1.2 p h2
  · rw [h2]
    refine artistNodeWF_upd _ al s m ?_
    cases ha : dictGet gn1 a with
    | none => exact ⟨List.nodup_nil, fun q hq => absurd hq (List.not_mem_nil q)⟩
    | some an => exact h1.2 (a, an) (dictGet_mem gn1 a an ha)

theorem treeWF_ensure (t : CatalogTree) (g : String) (h : treeWF t) :
    treeWF (if containsKey t g then t else dictSet t g []) := by
  cases hc : containsKey t g
  · rw [if_neg (by simp [hc])]
    refine ⟨nodupKeys_dictSet t g [] h.1, fun p hp => ?_⟩
    rcases mem_dictSet t g [] p hp with h1 | h1
    · exact h.2 p h1
    · rw [h1]
      exact ⟨List.nodup_nil, fun q hq => absurd hq (List.not_mem_nil q)⟩
  · rw [if_pos (by simp [hc])]
    exact h

theorem treeWF_add_song (t : CatalogTree) (g a al s : String)
    (m : Option SongRecord) (h : treeWF t) : treeWF (add_song t g a al s m) := by
  rw [add_song_eq_upd]
  have h1 := treeWF_ensure t g h
  set t1 := if containsKey t g then t else dictSet t g [] with ht1
  refine ⟨nodupKeys_dictSet t1 g _ h1.1, fun p hp => ?_⟩
  rcases mem_dictSet t1 g _ p hp with h2 | h2
  · exact h1.2 p h2
  · rw [h2]
    refine genreNodeWF_upd _ a al s m ?_
    cases hg : dictGet t1 g with
    | none => exact ⟨List.nodup_nil, fun q hq => absurd hq (List.not_mem_nil q)⟩
    | some gn => exact h1.2 (g, gn) (dictGet_mem t1 g gn hg)

theorem random_choice_empty {α : Type} (i : Nat) :
    random_choice ([] : List α) i = Except.error Exc.indexError := by
  simp [random_choice]

theorem random_choice_mem {α : Type} (xs : List α) (i : Nat) (h : xs ≠ []) :
    ∃ x, random_choice xs i = Except.ok x ∧ x ∈ xs := by
  have hl : xs.length ≠ 0 := by simpa using h
  refine ⟨xs.get ⟨i % xs.length, Nat.mod_lt i (Nat.pos_of_ne_zero hl)⟩, ?_, ?_⟩
  · rw [random_choice, dif_neg hl]
  · exact xs.get_mem _ _

/-- C1: Round-trip law — for every CatalogTree built by a finite sequence of
`add_song` calls, saving it with `save_yggdrasil` and loading the same
destination with `load_yggdrasil` succeeds and yields a document that reads
back as a tree on which `lookup` and every level of `enumerate_keys` return
exactly the results of the pre-save tree, key for key and attribute for
attribute. -/
theorem round_trip_law (ops : List AddOp) (g a al s : String) :
    ∃ t', load_yggdrasil (save_yggdrasil (buildTree ops)) =
        Except.ok (encodeTree (buildTree ops)) ∧
      decodeTree (encodeTree (buildTree ops)) = some t' ∧
      lookup t' g a al s = lookup (buildTree ops) g a al s ∧
      enumerate_keys0 t' = enumerate_keys0 (buildTree ops) ∧
      enumerate_keys1 t' g = enumerate_keys1 (buildTree ops) g ∧
      enumerate_keys2 t' g a = enumerate_keys2 (buildTree ops) g a ∧
      enumerate_keys3 t' g a al = enumerate_keys3 (buildTree ops) g a al :=
  ⟨buildTree ops, rfl, decodeTree_encodeTree _, rfl, rfl, rfl, rfl, rfl⟩

/-- C2: Path-creation invariant — `add_song` on a path not previously
present inserts the record, creating missing intermediate nodes; afterwards
`lookup` on that exact path returns the inserted record (`metadata or {}`,
so a missing record argument stores the empty attribute mapping, witnessed
by the `metaOr none = []` conjunct), and the key set at every ancestor
prefix includes the newly created key.  `add_song` is a total function in
this embedding, so it never fails. -/
theorem path_creation_invariant (t : CatalogTree) (g a al s : String)
    (metadata : Option SongRecord)
    (h : ∃ e, lookup t g a al s = Except.error e) :
    lookup (add_song t g a al s metadata) g a al s =
      Except.ok (metaOr metadata) ∧
    metaOr none = [] ∧
    g ∈ enumerate_keys0 (add_song t g a al s metadata) ∧
    (∃ ks, enumerate_keys1 (add_song t g a al s metadata) g = Except.ok ks ∧
      a ∈ ks) ∧
    (∃ ks, enumerate_keys2 (add_song t g a al s metadata) g a = Except.ok ks ∧
      al ∈ ks) ∧
    (∃ ks, enumerate_keys3 (add_song t g a al s metadata) g a al = Except.ok ks ∧
      s ∈ ks) := by
  clear h
  obtain ⟨gn, an, aln, h1, h2, h3, h4⟩ := add_song_path_get t g a al s metadata
  refine ⟨(lookup_ok_iff _ g a al s _).mpr ⟨gn, an, aln, h1, h2, h3, h4⟩, rfl,
    ?_, ?_, ?_, ?_⟩
  · exact mem_dictKeys_of_dictGet _ g gn h1
  · exact ⟨dictKeys gn, by simp [enumerate_keys1, h1],
      mem_dictKeys_of_dictGet gn a an h2⟩
  · exact ⟨dictKeys an, by simp [enumerate_keys2, h1, h2],
      mem_dictKeys_of_dictGet an al aln h3⟩
  · exact ⟨dictKeys aln, by simp [enumerate_keys3, h1, h2, h3],
      mem_dictKeys_of_dictGet aln s (metaOr metadata) h4⟩

/-- Witness for C2 at a concrete fresh path, reproducing the spec's Bohemian
Rhapsody scenario. -/
theorem path_creation_invariant_witness :
    (∃ e, lookup [] "Rock" "Queen" "Opera" "Bo" = Except.error e) ∧
    lookup
        (add_song [] "Rock" "Queen" "Opera" "Bo"
          (some [("duration_ms", Json.num 354000)]))
        "Rock" "Queen" "Opera" "Bo" =
      Except.ok [("duration_ms", Json.num 354000)] :=
  ⟨⟨Exc.keyError "Rock", rfl⟩,
    (path_creation_invariant [] "Rock" "Queen" "Opera" "Bo"
      (some [("duration_ms", Json.num 354000)])
      ⟨Exc.keyError "Rock", rfl⟩).1⟩

/-- C3 counterexample: on the empty CatalogTree, `random_genre` raises
`IndexError` (from `random.choice` subscripting an empty sequence), not the
`EmptyCollectionError` the claim requires — the program neither defines that
error class nor checks emptiness before sampling. -/
theorem sample_random_counterexample :
    random_genre ([] : CatalogTree) 0 = Except.error Exc.indexError ∧
    random_genre ([] : CatalogTree) 0 ≠ Except.error Exc.emptyCollectionError := by
  refine ⟨rfl, ?_⟩
  intro hcon
  have h2 : (Except.error Exc.indexError : Except Exc String) =
      Except.error Exc.emptyCollectionError := by
    rw [← hcon]
    rfl
  injection h2 with h3
  exact Exc.noConfusion h3

/-- C3 amended: each sampling function on a prefix addressing a non-empty
node returns a key belonging to that node's key set; on an empty node it
raises `IndexError` from `random.choice` (no emptiness pre-check, no
`EmptyCollectionError`). -/
theorem sample_random_membership (t : CatalogTree) (i : Nat) :
    (enumerate_keys0 t = [] →
      random_genre t i = Except.error Exc.indexError) ∧
    (enumerate_keys0 t ≠ [] →
      ∃ k, random_genre t i = Except.ok k ∧ k ∈ enumerate_keys0 t) ∧
    (∀ g gn, dictGet t g = some gn →
      (dictKeys gn = [] → random_artist t g i = Except.error Exc.indexError) ∧
      (dictKeys gn ≠ [] →
        ∃ k, random_artist t g i = Except.ok k ∧ k ∈ dictKeys gn)) ∧
    (∀ g gn a an, dictGet t g = some gn → dictGet gn a = some an →
      (dictKeys an = [] → random_album t g a i = Except.error Exc.indexError) ∧
      (dictKeys an ≠ [] →
        ∃ k, random_album t g a i = Except.ok k ∧ k ∈ dictKeys an)) ∧
    (∀ g gn a an al aln, dictGet t g = some gn → dictGet gn a = some an →
      dictGet an al = some aln →
      (dictKeys aln = [] → random_song t g a al i = Except.error Exc.indexError) ∧
      (dictKeys aln ≠ [] →
        ∃ k, random_song t g a al i = Except.ok k ∧ k ∈ dictKeys aln)) := by
  refine ⟨?_, ?_, ?_, ?_, ?_⟩
  · intro h0
    have h0' : dictKeys t = [] := h0
    rw [random_genre, h0']
    exact random_choice_empty i
  · intro h0
    exact random_choice_mem (dictKeys t) i h0
  · intro g gn hg
    constructor
    · intro h0
      simp only [random_artist, hg]
      rw [h0]
      exact random_choice_empty i
    · intro h0
      simp only [random_artist, hg]
      exact random_choice_mem (dictKeys gn) i h0
  · intro g gn a an hg ha
    constructor
    · intro h0
      simp only [random_album, hg, ha]
      rw [h0]
      exact random_choice_empty i
    · intro h0
      simp only [random_album, hg, ha]
      exact random_choice_mem (dictKeys an) i h0
  · intro g gn a an al aln hg ha hal
    constructor
    · intro h0
      simp only [random_song, hg, ha, hal]
      rw [h0]
      exact random_choice_empty i
    · intro h0
      simp only [random_song, hg, ha, hal]
      exact random_choice_mem (dictKeys aln) i h0

/-- Witness for the amended C3: a non-empty root yields a member key; an
empty genre node raises `IndexError`. -/
theorem sample_random_membership_witness :
    (∃ k, random_genre [("Rock", [("Queen", [])])] 0 = Except.ok k ∧
      k ∈ enumerate_keys0 [("Rock", [("Queen", [])])]) ∧
    random_artist [("Rock", [])] "Rock" 0 = Except.error Exc.indexError :=
  ⟨(sample_random_membership [("Rock", [("Queen", [])])] 0).2.1 (by decide),
    ((sample_random_membership [("Rock", [])] 0).2.2.1 "Rock" [] rfl).1 rfl⟩

/-- C4 counterexample: during `save_yggdrasil` the destination passes
through a truncated state (`open(filename, "w")` empties the file before
`json.dump` writes) that is neither the previously saved document nor the
completed new one, so an interruption mid-write can leave corrupted
content. -/
theorem save_atomicity_counterexample :
    some FileContent.badDoc ∈
      save_yggdrasil_trace (add_song [] "Rock" "Queen" "Opera" "Bo" none)
        (some (FileContent.jsonDoc (Json.obj []))) ∧
    some FileContent.badDoc ≠ some (FileContent.jsonDoc (Json.obj [])) ∧
    some FileContent.badDoc ≠
      save_yggdrasil (add_song [] "Rock" "Queen" "Opera" "Bo" none) := by
  refine ⟨?_, ?_, ?_⟩
  · simp [save_yggdrasil_trace]
  · intro hcon
    injection hcon with h2
    exact FileContent.noConfusion h2
  · intro hcon
    rw [show save_yggdrasil (add_song [] "Rock" "Queen" "Opera" "Bo" none) =
        some (FileContent.jsonDoc
          (encodeTree (add_song [] "Rock" "Queen" "Opera" "Bo" none))) from rfl]
      at hcon
    injection hcon with h2
    exact FileContent.noConfusion h2

/-- C4 amended: `save_yggdrasil` overwrites the destination directly —
`open` with mode `"w"` truncates, then `json.dump` writes; the final state
holds the complete new document, but an intermediate state of the write is
neither the old document nor the new one (no write-then-rename, no
atomicity). -/
theorem save_direct_overwrite (t : CatalogTree) (pre : FileState) (j : Json)
    (hpre : pre = some (FileContent.jsonDoc j)) :
    (save_yggdrasil_trace t pre).getLast? = some (save_yggdrasil t) ∧
    save_yggdrasil t = some (FileContent.jsonDoc (encodeTree t)) ∧
    ∃ st ∈ save_yggdrasil_trace t pre, st ≠ pre ∧
      ∀ j2, st ≠ some (FileContent.jsonDoc j2) := by
  refine ⟨rfl, rfl, ⟨some FileContent.badDoc, ?_, ?_, ?_⟩⟩
  · simp [save_yggdrasil_trace]
  · rw [hpre]
    intro hcon
    injection hcon with h2
    exact FileContent.noConfusion h2
  · intro j2 hcon
    injection hcon with h2
    exact FileContent.noConfusion h2

/-- Witness for the amended C4 at a concrete tree and prior document. -/
theorem save_direct_overwrite_witness :
    (some (FileContent.jsonDoc (Json.obj [])) : FileState) =
      some (FileContent.jsonDoc (Json.obj [])) ∧
    (save_yggdrasil_trace [] (some (FileContent.jsonDoc (Json.obj [])))).getLast? =
      some (save_yggdrasil []) :=
  ⟨rfl, (save_direct_overwrite [] (some (FileContent.jsonDoc (Json.obj [])))
    (Json.obj []) rfl).1⟩

/-- C5: Cold-start property — `load_yggdrasil` on a nonexistent destination
returns the empty tree (the empty JSON object, which decodes to the empty
CatalogTree) and reports no error. -/
theorem cold_start_property :
    load_yggdrasil none = Except.ok (Json.obj []) ∧
    decodeTree (Json.obj []) = some ([] : CatalogTree) ∧
    ∀ cur, load_yggdrasil_state none cur = (Json.obj [], none) :=
  ⟨rfl, rfl, fun _ => rfl⟩

/-- C6 counterexample: a destination holding `[]` — valid JSON that is not
decodable as the nested-mapping shape — is loaded without any error: the
program performs no shape validation and has no `PersistenceFormatError`. -/
theorem load_malformed_counterexample :
    decodeTree (Json.arr []) = none ∧
    load_yggdrasil (some (FileContent.jsonDoc (Json.arr []))) =
      Except.ok (Json.arr []) ∧
    load_yggdrasil (some (FileContent.jsonDoc (Json.arr []))) ≠
      Except.error Exc.persistenceFormatError := by
  refine ⟨rfl, rfl, ?_⟩
  intro hcon
  rw [show load_yggdrasil (some (FileContent.jsonDoc (Json.arr []))) =
      Except.ok (Json.arr []) from rfl] at hcon
  exact Except.noConfusion hcon

/-- C6 amended: `load_yggdrasil` raises `json.JSONDecodeError` — not a
`PersistenceFormatError` — exactly when the file content is not valid JSON,
leaving the in-memory tree unchanged; content that is valid JSON but not of
the nested-mapping shape is returned as the tree without validation. -/
theorem load_malformed_behavior :
    (∀ cur, load_yggdrasil_state (some FileContent.badDoc) cur =
      (cur, some Exc.jsonDecodeError)) ∧
    (∀ j cur, load_yggdrasil_state (some (FileContent.jsonDoc j)) cur =
      (j, none)) ∧
    load_yggdrasil (some FileContent.badDoc) = Except.error Exc.jsonDecodeError :=
  ⟨fun _ => rfl, fun _ _ => rfl, rfl⟩

/-- C7: Overwrite invariant — two `add_song` calls on the same path with
different records leave exactly the second record reachable by `lookup`,
and the per-level key-uniqueness invariant is preserved, so no duplicate
sibling key is created at any level. -/
theorem overwrite_invariant (t : CatalogTree) (g a al s : String)
    (m1 m2 : Option SongRecord) (hWF : treeWF t) (hne : m1 ≠ m2) :
    lookup (add_song (add_song t g a al s m1) g a al s m2) g a al s =
      Except.ok (metaOr m2) ∧
    treeWF (add_song (add_song t g a al s m1) g a al s m2) := by
  constructor
  · obtain ⟨gn, an, aln, h1, h2, h3, h4⟩ :=
      add_song_path_get (add_song t g a al s m1) g a al s m2
    exact (lookup_ok_iff _ g a al s _).mpr ⟨gn, an, aln, h1, h2, h3, h4⟩
  · exact treeWF_add_song _ g a al s m2 (treeWF_add_song t g a al s m1 hWF)

/-- Witness for C7: overwriting a concrete song leaves only the second
record. -/
theorem overwrite_invariant_witness :
    treeWF ([] : CatalogTree) ∧
    (none : Option SongRecord) ≠ some [("duration_ms", Json.num 354000)] ∧
    lookup
        (add_song (add_song [] "Rock" "Queen" "Opera" "Bo" none)
          "Rock" "Queen" "Opera" "Bo" (some [("duration_ms", Json.num 354000)]))
        "Rock" "Queen" "Opera" "Bo" =
      Except.ok [("duration_ms", Json.num 354000)] :=
  ⟨⟨List.nodup_nil, fun p hp => absurd hp (List.not_mem_nil p)⟩,
    fun hcon => Option.noConfusion hcon,
    (overwrite_invariant [] "Rock" "Queen" "Opera" "Bo" none
      (some [("duration_ms", Json.num 354000)])
      ⟨List.nodup_nil, fun p hp => absurd hp (List.not_mem_nil p)⟩
      (fun hcon => Option.noConfusion hcon)).1⟩

/-- C8 counterexample: `lookup` of "Jazz" against a tree containing only
"Rock" raises `KeyError("Jazz")`, not the `PathNotFoundError` the claim
requires — the program has no such error class. -/
theorem lookup_error_counterexample :
    lookup (add_song [] "Rock" "Queen" "Opera" "Bo" none)
        "Jazz" "Queen" "Opera" "Bo" =
      Except.error (Exc.keyError "Jazz") ∧
    lookup (add_song [] "Rock" "Queen" "Opera" "Bo" none)
        "Jazz" "Queen" "Opera" "Bo" ≠
      Except.error (Exc.pathNotFoundError "Jazz") := by
  refine ⟨rfl, ?_⟩
  intro hcon
  rw [show lookup (add_song [] "Rock" "Queen" "Opera" "Bo" none)
      "Jazz" "Queen" "Opera" "Bo" = Except.error (Exc.keyError "Jazz") from rfl]
    at hcon
  injection hcon with h2
  exact Exc.noConfusion h2

/-- C8 amended: `lookup` raises `KeyError` naming the first missing path
segment (genre before artist before album before song); when the full path
exists it returns the leaf record. -/
theorem lookup_first_missing_segment (t : CatalogTree) (g a al s : String) :
    (dictGet t g = none → lookup t g a al s = Except.error (Exc.keyError g)) ∧
    (∀ gn, dictGet t g = some gn → dictGet gn a = none →
      lookup t g a al s = Except.error (Exc.keyError a)) ∧
    (∀ gn an, dictGet t g = some gn → dictGet gn a = some an →
      dictGet an al = none →
      lookup t g a al s = Except.error (Exc.keyError al)) ∧
    (∀ gn an aln, dictGet t g = some gn → dictGet gn a = some an →
      dictGet an al = some aln → dictGet aln s = none →
      lookup t g a al s = Except.error (Exc.keyError s)) ∧
    (∀ gn an aln r, dictGet t g = some gn → dictGet gn a = some an →
      dictGet an al = some aln → dictGet aln s = some r →
      lookup t g a al s = Except.ok r) := by
  refine ⟨?_, ?_, ?_, ?_, ?_⟩
  · intro h0
    simp [lookup, h0]
  · intro gn h0 h1
    simp [lookup, h0, h1]
  · intro gn an h0 h1 h2
    simp [lookup, h0, h1, h2]
  · intro gn an aln h0 h1 h2 h3
    simp [lookup, h0, h1, h2, h3]
  · intro gn an aln r h0 h1 h2 h3
    simp [lookup, h0, h1, h2, h3]

/-- Witness for the amended C8: the Jazz-versus-Rock scenario names the
first missing segment. -/
theorem lookup_first_missing_segment_witness :
    dictGet (add_song [] "Rock" "Queen" "Opera" "Bo" none) "Jazz" = none ∧
    lookup (add_song [] "Rock" "Queen" "Opera" "Bo" none) "Jazz" "Q" "O" "B" =
      Except.error (Exc.keyError "Jazz") :=
  ⟨rfl, (lookup_first_missing_segment
    (add_song [] "Rock" "Queen" "Opera" "Bo" none) "Jazz" "Q" "O" "B").1 rfl⟩

/-- C9 counterexample: reloading does not merge — an in-memory tree holding
the Rock song is replaced wholesale by a persisted document holding only a
Jazz song, and the in-memory entry is lost after the reload. -/
theorem reload_merge_counterexample :
    lookup (add_song [] "Rock" "Queen" "Opera" "Bo" none)
        "Rock" "Queen" "Opera" "Bo" = Except.ok [] ∧
    (load_yggdrasil_state
        (some (FileContent.jsonDoc
          (encodeTree (add_song [] "Jazz" "Miles" "Blue" "So" none))))
        (encodeTree (add_song [] "Rock" "Queen" "Opera" "Bo" none))).1 =
      encodeTree (add_song [] "Jazz" "Miles" "Blue" "So" none) ∧
    decodeTree (encodeTree (add_song [] "Jazz" "Miles" "Blue" "So" none)) =
      some (add_song [] "Jazz" "Miles" "Blue" "So" none) ∧
    lookup (add_song [] "Jazz" "Miles" "Blue" "So" none)
        "Rock" "Queen" "Opera" "Bo" = Except.error (Exc.keyError "Rock") :=
  ⟨rfl, rfl, decodeTree_encodeTree _, rfl⟩

/-- C9 amended: `load_yggdrasil` replaces the in-memory tree wholesale with
the persisted document (no merge): loading succeeds, every song path present
in the persisted document is present afterwards with its record intact, and
in-memory entries absent from the document are discarded. -/
theorem reload_replaces_wholesale (t : CatalogTree) (cur : Json)
    (g a al s : String) (r : SongRecord)
    (h : lookup t g a al s = Except.ok r) :
    (load_yggdrasil_state (some (FileContent.jsonDoc (encodeTree t))) cur).1 =
      encodeTree t ∧
    (load_yggdrasil_state (some (FileContent.jsonDoc (encodeTree t))) cur).2 =
      none ∧
    ∃ t', decodeTree (encodeTree t) = some t' ∧
      lookup t' g a al s = Except.ok r :=
  ⟨rfl, rfl, t, decodeTree_encodeTree t, h⟩

/-- Witness for the amended C9 at a concrete document and path. -/
theorem reload_replaces_wholesale_witness :
    lookup (add_song [] "Rock" "Queen" "Opera" "Bo" none)
        "Rock" "Queen" "Opera" "Bo" = Except.ok [] ∧
    (load_yggdrasil_state
        (some (FileContent.jsonDoc
          (encodeTree (add_song [] "Rock" "Queen" "Opera" "Bo" none))))
        (Json.obj [])).2 = none :=
  ⟨rfl, (reload_replaces_wholesale (add_song [] "Rock" "Queen" "Opera" "Bo" none)
    (Json.obj []) "Rock" "Queen" "Opera" "Bo" [] rfl).2.1⟩

/-- C10: Frame property of `add_song` — any path distinct from the added one
that resolved to a leaf record before the call still resolves to the same
record afterwards: `add_song` never removes or alters any other leaf. -/
theorem add_song_frame (t : CatalogTree) (g a al s : String)
    (m : Option SongRecord) (g' a' al' s' : String) (r : SongRecord)
    (hne : (g', a', al', s') ≠ (g, a, al, s))
    (h : lookup t g' a' al' s' = Except.ok r) :
    lookup (add_song t g a al s m) g' a' al' s' = Except.ok r := by
  rw [lookup_ok_iff] at h
  obtain ⟨gn', an', aln', hg', ha', hal', hs'⟩ := h
  rw [lookup_ok_iff]
  by_cases hgg : g' = g
  · subst hgg
    have e1 : dictGet (add_song t g' a al s m) g' =
        some (updGenreNode gn' a al s m) := by
      rw [dictGet_add_song_self, hg']
      rfl
    by_cases haa : a' = a
    · subst haa
      have e2 : dictGet (updGenreNode gn' a' al s m) a' =
          some (updArtistNode an' al s m) := by
        rw [dictGet_updGenreNode_self, ha']
        rfl
      by_cases hll : al' = al
      · subst hll
        have hss : s' ≠ s := by
          intro hcon
          exact hne (by rw [hcon])
        have e3 : dictGet (updArtistNode an' al' s m) al' =
            some (updAlbumNode aln' s m) := by
          rw [dictGet_updArtistNode_self, hal']
          rfl
        have e4 : dictGet (updAlbumNode aln' s m) s' = some r := by
          rw [dictGet_updAlbumNode_ne _ _ _ hss]
          exact hs'
        exact ⟨_, _, _, e1, e2, e3, e4⟩
      · have e3 : dictGet (updArtistNode an' al s m) al' = some aln' := by
          rw [dictGet_updArtistNode_ne _ _ _ _ hll]
          exact hal'
        exact ⟨_, _, _, e1, e2, e3, hs'⟩
    · have e2 : dictGet (updGenreNode gn' a al s m) a' = some an' := by
        rw [dictGet_updGenreNode_ne _ _ _ _ _ haa]
        exact ha'
      exact ⟨_, _, _, e1, e2, hal', hs'⟩
  · have e1 : dictGet (add_song t g a al s m) g' = some gn' := by
      rw [dictGet_add_song_ne t g a al s m hgg]
      exact hg'
    exact ⟨_, _, _, e1, ha', hal', hs'⟩

/-- Witness for C10: adding a Jazz song leaves a previously present Rock
song untouched. -/
theorem add_song_frame_witness :
    ((("Rock" : String), ("Queen" : String), ("Opera" : String),
        ("Bo" : String)) ≠ ("Jazz", "Miles", "Blue", "So")) ∧
    lookup
        (add_song (add_song [] "Rock" "Queen" "Opera" "Bo" none)
          "Jazz" "Miles" "Blue" "So" (some [("x", Json.num 7)]))
        "Rock" "Queen" "Opera" "Bo" = Except.ok [] :=
  ⟨by decide,
    add_song_frame (add_song [] "Rock" "Queen" "Opera" "Bo" none)
      "Jazz" "Miles" "Blue" "So" (some [("x", Json.num 7)])
      "Rock" "Queen" "Opera" "Bo" [] (by decide) rfl⟩

end Yggdrasil
